import Mathlib

/-!
Verification of the jiraextension repository (src/jira_client.py, src/app.py)
against its natural-language specification.

The Python code is shallowly embedded: JSON values become an inductive
`JValue`, Python dicts become insertion-ordered association lists,
`str.split` becomes a character-level splitter with the same semantics,
and the one place the code mutates a dict through a reference
(`update_issue`) is modelled with an explicit store of dictionaries.
Paths where the Python code would raise are modelled with `Except`.
-/

set_option autoImplicit false

namespace Jira

/-- Model of a Python JSON-like value (the payloads the client builds and the
bodies the remote API returns). Python `None` is `null`; a Python dict is an
insertion-ordered association list. -/
inductive JValue where
  | str (s : String)
  | num (n : Int)
  | bool (b : Bool)
  | null
  | arr (xs : List JValue)
  | obj (fields : List (String × JValue))
  deriving Repr

/-- A Python dict with string keys, insertion-ordered. -/
abbrev PyDict := List (String × JValue)

mutual

/-- Boolean structural equality on `JValue` (hand-rolled because automatic
derivation does not handle the nested lists). -/
def JValue.beq : JValue → JValue → Bool
  | .str a, .str b => a == b
  | .num a, .num b => a == b
  | .bool a, .bool b => a == b
  | .null, .null => true
  | .arr a, .arr b => JValue.beqList a b
  | .obj a, .obj b => JValue.beqPairs a b
  | _, _ => false

/-- Elementwise `JValue.beq` on lists. -/
def JValue.beqList : List JValue → List JValue → Bool
  | [], [] => true
  | a :: as, b :: bs => JValue.beq a b && JValue.beqList as bs
  | _, _ => false

/-- Elementwise `JValue.beq` on key-value pair lists. -/
def JValue.beqPairs : List (String × JValue) → List (String × JValue) → Bool
  | [], [] => true
  | (k1, v1) :: as, (k2, v2) :: bs =>
      k1 == k2 && JValue.beq v1 v2 && JValue.beqPairs as bs
  | _, _ => false

end

mutual

def JValue.eq_of_beq : ∀ a b : JValue, JValue.beq a b = true → a = b
  | .str a, .str b, h => by
      simp only [JValue.beq, beq_iff_eq] at h; rw [h]
  | .num a, .num b, h => by
      simp only [JValue.beq, beq_iff_eq] at h; rw [h]
  | .bool a, .bool b, h => by
      simp only [JValue.beq, beq_iff_eq] at h; rw [h]
  | .null, .null, _ => rfl
  | .arr a, .arr b, h => by
      rw [JValue.eqList_of_beqList a b (by simpa [JValue.beq] using h)]
  | .obj a, .obj b, h => by
      rw [JValue.eqPairs_of_beqPairs a b (by simpa [JValue.beq] using h)]

def JValue.eqList_of_beqList :
    ∀ a b : List JValue, JValue.beqList a b = true → a = b
  | [], [], _ => rfl
  | a :: as, b :: bs, h => by
      simp only [JValue.beqList, Bool.and_eq_true] at h
      rw [JValue.eq_of_beq a b h.1, JValue.eqList_of_beqList as bs h.2]

def JValue.eqPairs_of_beqPairs :
    ∀ a b : List (String × JValue), JValue.beqPairs a b = true → a = b
  | [], [], _ => rfl
  | (k1, v1) :: as, (k2, v2) :: bs, h => by
      simp only [JValue.beqPairs, Bool.and_eq_true, beq_iff_eq] at h
      rw [h.1.1, JValue.eq_of_beq v1 v2 h.1.2,
        JValue.eqPairs_of_beqPairs as bs h.2]

end

mutual

def JValue.beq_refl : ∀ a : JValue, JValue.beq a a = true
  | .str _ => by simp [JValue.beq]
  | .num _ => by simp [JValue.beq]
  | .bool _ => by simp [JValue.beq]
  | .null => rfl
  | .arr a => by simpa [JValue.beq] using JValue.beqList_refl a
  | .obj a => by simpa [JValue.beq] using JValue.beqPairs_refl a

def JValue.beqList_refl : ∀ a : List JValue, JValue.beqList a a = true
  | [] => rfl
  | a :: as => by
      simp [JValue.beqList, JValue.beq_refl a, JValue.beqList_refl as]

def JValue.beqPairs_refl :
    ∀ a : List (String × JValue), JValue.beqPairs a a = true
  | [] => rfl
  | (k, v) :: as => by
      simp [JValue.beqPairs, JValue.beq_refl v, JValue.beqPairs_refl as]

end

instance : DecidableEq JValue := fun a b =>
  if h : JValue.beq a b = true then .isTrue (JValue.eq_of_beq a b h)
  else .isFalse (fun he => h (he ▸ JValue.beq_refl a))

/-- Character-level model of Python `s.split("\n")`: cut at every newline,
keeping empty pieces, so the result has one piece more than the number of
newlines. -/
def splitNl : List Char → List (List Char)
  | [] => [[]]
  | c :: cs =>
    if c = '\n' then [] :: splitNl cs
    else
      match splitNl cs with
      | [] => [[c]]
      | g :: gs => (c :: g) :: gs

/-- Character-level model of Python `s.split("\n\n")`: scan left to right and
cut at each non-overlapping occurrence of two consecutive newlines. -/
def splitNl2 : List Char → List (List Char)
  | [] => [[]]
  | [c] => [[c]]
  | c1 :: c2 :: cs =>
    if c1 = '\n' && c2 = '\n' then [] :: splitNl2 cs
    else
      match splitNl2 (c2 :: cs) with
      | [] => [[c1]]
      | g :: gs => (c1 :: g) :: gs

/-- Python `s.split("\n")` on strings. -/
def pySplitNl (s : String) : List String := (splitNl s.toList).map String.mk

/-- Python `s.split("\n\n")` on strings. -/
def pySplitNl2 (s : String) : List String := (splitNl2 s.toList).map String.mk

/-- The ADF text node `{"type": "text", "text": line}` built at
src/jira_client.py line 73. -/
def textNode (line : String) : JValue :=
  .obj [("type", .str "text"), ("text", .str line)]

/-- The ADF hard-break node `{"type": "hardBreak"}` built at
src/jira_client.py line 75. -/
def hardBreakNode : JValue := .obj [("type", .str "hardBreak")]

/-- The node list built by the inner loop of `_text_to_adf`
(src/jira_client.py lines 70-75): a text node for each non-empty line, and a
hard break after every line except the last. -/
def lineNodes : List String → List JValue
  | [] => []
  | [line] => if line = "" then [] else [textNode line]
  | line :: rest =>
      (if line = "" then [] else [textNode line]) ++ hardBreakNode :: lineNodes rest

/-- The paragraph object built at src/jira_client.py lines 76-78:
`{"type": "paragraph"}`, with a `"content"` key added only when the node list
is non-empty. -/
def mkParagraph (content : List JValue) : JValue :=
  match content with
  | [] => .obj [("type", .str "paragraph")]
  | _ => .obj [("type", .str "paragraph"), ("content", .arr content)]

/-- The block list of `_text_to_adf` (src/jira_client.py line 65):
`text.split("\n\n") if text else [""]`. -/
def blocksOf (text : String) : List String :=
  if text = "" then [""] else pySplitNl2 text

/-- The line list of a block (src/jira_client.py line 69):
`block.split("\n") if block else [""]`. -/
def linesOf (block : String) : List String :=
  if block = "" then [""] else pySplitNl block

/-- The paragraph `_text_to_adf` emits for one block (one iteration of the
loop at src/jira_client.py lines 68-79). -/
def paragraphOfBlock (block : String) : JValue :=
  mkParagraph (lineNodes (linesOf block))

/-- `_text_to_adf` (src/jira_client.py lines 61-81): convert plain text into
a minimal Atlassian Document Format payload. -/
def text_to_adf (text : String) : JValue :=
  .obj [("type", .str "doc"), ("version", .num 1),
        ("content", .arr ((blocksOf text).map paragraphOfBlock))]

/-- Whether a JSON object carries a `"content"` key (used to state the
empty-paragraph claims). -/
def hasContentKey : JValue → Bool
  | .obj kvs => kvs.any (fun p => p.1 = "content")
  | _ => false

/-- Python `d.get(k)` on an insertion-ordered dict: value of the first (and
only) entry with key `k`, or absence. -/
def getKey (d : PyDict) (k : String) : Option JValue :=
  (d.find? (fun p => p.1 = k)).map (fun p => p.2)

/-- Python `d[k] = v` on an insertion-ordered dict: replace the value in
place if the key exists, otherwise append the new entry at the end. -/
def setKey (d : PyDict) (k : String) (v : JValue) : PyDict :=
  if d.any (fun p => p.1 = k) then
    d.map (fun p => if p.1 = k then (k, v) else p)
  else d ++ [(k, v)]

/-- `_ensure_adf` (src/jira_client.py lines 84-91): `None` becomes the ADF
conversion of the empty string, a dict passes through unchanged, a string is
converted with `_text_to_adf`; any other Python value reaches
`_text_to_adf(description)` whose `.split` call raises (modelled as
`.error`). -/
def ensure_adf : JValue → Except Unit JValue
  | .null => .ok (text_to_adf "")
  | .obj d => .ok (.obj d)
  | .str s => .ok (text_to_adf s)
  | _ => .error ()

/-- `JiraSettings` (src/jira_client.py lines 19-26). -/
structure JiraSettings where
  base_url : String
  email : String
  api_token : String
  project_key : String
  issue_type : String
  start_date_field_id : Option String := none
  deriving Repr, DecidableEq

/-- Python truthiness of an `Optional[str]`: `None` and `""` are falsy. -/
def truthyOptStr : Option String → Bool
  | Option.none => false
  | Option.some s => !(s == "")

/-- The `fields` object built by `JiraClient.create_issue`
(src/jira_client.py lines 111-132): project, summary and issue type, then
`duedate` when `due_date` is truthy, then the configured custom start-date
field when both `start_date` and the field id are truthy, and finally the
description passed through `_ensure_adf`. -/
def create_issue_fields (settings : JiraSettings) (summary : String)
    (description : JValue) (start_date due_date : Option String) :
    Except Unit PyDict :=
  let fields : PyDict :=
    [("project", .obj [("key", .str settings.project_key)]),
     ("summary", .str summary),
     ("issuetype", .obj [("name", .str settings.issue_type)])]
  let fields :=
    match due_date with
    | Option.some d => if d ≠ "" then setKey fields "duedate" (.str d) else fields
    | Option.none => fields
  let fields :=
    match start_date, settings.start_date_field_id with
    | Option.some sd, Option.some fid =>
        if sd ≠ "" ∧ fid ≠ "" then setKey fields fid (.str sd) else fields
    | _, _ => fields
  match ensure_adf description with
  | .ok adf => .ok (setKey fields "description" adf)
  | .error e => .error e

/-- The request payload of `create_issue` (src/jira_client.py line 132):
`{"fields": fields}`. -/
def create_issue_payload (settings : JiraSettings) (summary : String)
    (description : JValue) (start_date due_date : Option String) :
    Except Unit JValue :=
  match create_issue_fields settings summary description start_date due_date with
  | .ok fields => .ok (.obj [("fields", .obj fields)])
  | .error e => .error e

/-- An address of a Python dict object in the store. -/
abbrev Addr := Nat

/-- An explicit store of dict objects, modelling Python references so that
mutation (or its absence) is observable. -/
structure Store where
  dicts : List PyDict
  deriving Repr, DecidableEq

/-- Dereference an address. -/
def Store.read (σ : Store) (a : Addr) : Option PyDict := σ.dicts[a]?

/-- Allocate a fresh dict object (Python `dict(fields)` allocates a copy). -/
def Store.alloc (σ : Store) (d : PyDict) : Store × Addr :=
  (⟨σ.dicts ++ [d]⟩, σ.dicts.length)

/-- Overwrite the dict stored at an address. -/
def Store.write (σ : Store) (a : Addr) (d : PyDict) : Store :=
  ⟨σ.dicts.set a d⟩

/-- The field-preparation step of `JiraClient.update_issue`
(src/jira_client.py lines 143-145): when the dict at `a` has a
`"description"` key, allocate a shallow copy (`fields = dict(fields)`), then
assign the `_ensure_adf` conversion into the copy; the returned address is
the dict actually sent. A `"description"`-less dict is sent as is. If
`_ensure_adf` raises, the copy stays untouched and the error propagates. -/
def update_issue_prepare (σ : Store) (a : Addr) : Store × Except Unit Addr :=
  match σ.read a with
  | Option.none => (σ, .error ())
  | Option.some fields =>
    match getKey fields "description" with
    | Option.none => (σ, .ok a)
    | Option.some desc =>
      let p := σ.alloc fields
      match ensure_adf desc with
      | .error e => (p.1, .error e)
      | .ok adf => (p.1.write p.2 (setKey fields "description" adf), .ok p.2)

/-- An HTTP response as the client observes it: status code, body text, and
the JSON parse of the body (`Option.none` when `response.json()` would raise
`ValueError`). -/
structure HttpResponse where
  status : Nat
  text : String
  jsonBody : Option JValue
  deriving Repr

/-- `response.raise_for_status()` raises exactly for client/server error
codes, 400-599. -/
def raiseForStatus (status : Nat) : Bool := 400 ≤ status && status < 600

/-- The response handling of `JiraClient.update_issue`
(src/jira_client.py lines 146-150): raise on a 4xx/5xx status, return the
synthetic marker `{"status": "success"}` on an empty body, otherwise parse
the body as JSON (raising when the parse fails). -/
def update_issue_result (resp : HttpResponse) : Except Unit JValue :=
  if raiseForStatus resp.status then .error ()
  else if resp.text = "" then .ok (.obj [("status", .str "success")])
  else
    match resp.jsonBody with
    | Option.some j => .ok j
    | Option.none => .error ()

/-- `JiraConfigurationError` (src/jira_client.py lines 15-16, 38-49),
split by the two raise sites. -/
inductive JiraConfigurationError where
  | fileNotFound
  | missingValues (missing : List String)
  deriving Repr, DecidableEq

/-- The required configuration keys (src/jira_client.py line 44). -/
def requiredFields : List String :=
  ["base_url", "email", "api_token", "project_key", "issue_type"]

/-- The `jira` section of the configuration file as a string-valued mapping. -/
abbrev JiraSection := List (String × String)

/-- Python `jira_config.get(k)` on the section mapping. -/
def sectionGet (cfg : JiraSection) (k : String) : Option String :=
  (cfg.find? (fun p => p.1 = k)).map (fun p => p.2)

/-- Python truthiness of `jira_config.get(k)`: present and non-empty. -/
def sectionTruthy (cfg : JiraSection) (k : String) : Bool :=
  truthyOptStr (sectionGet cfg k)

/-- Python `s.rstrip("/")`: drop every trailing slash. -/
def rstripSlash (s : String) : String :=
  String.mk ((s.toList.reverse.dropWhile (fun c => c = Char.ofNat 47)).reverse)

/-- `load_settings` (src/jira_client.py lines 34-58). The input models the
configuration file: `Option.none` when the file is missing, otherwise the
parsed content's `jira` key (itself optional, defaulted to an empty mapping
by `content.get("jira") or \x7b\x7d`). Raises `JiraConfigurationError` when
the file is missing or any required key is absent or empty; otherwise builds
the settings, stripping trailing slashes from the base URL. -/
def load_settings (file : Option (Option JiraSection)) :
    Except JiraConfigurationError JiraSettings :=
  match file with
  | Option.none => .error .fileNotFound
  | Option.some content =>
    let jira_config := content.getD []
    let missing := requiredFields.filter (fun f => !sectionTruthy jira_config f)
    if missing.isEmpty then
      .ok
        { base_url := rstripSlash ((sectionGet jira_config "base_url").getD "")
          email := (sectionGet jira_config "email").getD ""
          api_token := (sectionGet jira_config "api_token").getD ""
          project_key := (sectionGet jira_config "project_key").getD ""
          issue_type := (sectionGet jira_config "issue_type").getD ""
          start_date_field_id := sectionGet jira_config "start_date_field_id" }
    else .error (.missingValues missing)

/-- A single-quote character, written by code point to keep string literals
simple. -/
def sq : String := String.singleton (Char.ofNat 39)

mutual

/-- Python `repr` of a JSON-like value (string escaping inside `repr` of a
string is not modelled; no claim exercises it). -/
def pyRepr : JValue → String
  | .str s => sq ++ s ++ sq
  | .num n => toString n
  | .bool b => if b then "True" else "False"
  | .null => "None"
  | .arr xs => "[" ++ pyReprList xs ++ "]"
  | .obj kvs => "\x7b" ++ pyReprPairs kvs ++ "\x7d"

/-- Comma-separated `repr`s of the elements of a list. -/
def pyReprList : List JValue → String
  | [] => ""
  | [x] => pyRepr x
  | x :: xs => pyRepr x ++ ", " ++ pyReprList xs

/-- Comma-separated `repr(key): repr(value)` entries of a dict. -/
def pyReprPairs : List (String × JValue) → String
  | [] => ""
  | [(k, v)] => sq ++ k ++ sq ++ ": " ++ pyRepr v
  | (k, v) :: kvs => sq ++ k ++ sq ++ ": " ++ pyRepr v ++ ", " ++ pyReprPairs kvs

end

/-- Python `str` of a JSON-like value: a string is itself, anything else
renders as its `repr` (as `f"..."` interpolation and `str(errors)` do). -/
def pyStr : JValue → String
  | .str s => s
  | v => pyRepr v

/-- Extract the strings of a list of values, `Option.none` when a non-string
is present (where Python `"; ".join(...)` raises `TypeError`). -/
def strList : List JValue → Option (List String)
  | [] => Option.some []
  | .str s :: rest => (strList rest).map (fun ss => s :: ss)
  | _ => Option.none

/-- Python truthiness of a JSON-like value: `None`, `""`, `0`, `False` and
empty containers are falsy. -/
def jTruthy : JValue → Bool
  | .null => false
  | .str s => !(s == "")
  | .num n => !(n == 0)
  | .bool b => b
  | .arr xs => !xs.isEmpty
  | .obj kvs => !kvs.isEmpty

/-- The error-message normalization of the `create_ticket` handler
(src/app.py lines 82-97). `default` is `str(exc)`; `body` is the JSON parse
of the failed response (`Option.none` when parsing raised `ValueError`).
When the body is a dict, `errors = body.get("errorMessages") or
body.get("errors")` (absent keys read as `None`); a list joins with `"; "`
(raising `TypeError` on non-string elements), a dict joins its
`f"\x7bfield\x7d: \x7berror\x7d"` entries with `"; "`, any other truthy
value renders with `str`, and otherwise the default message stands. -/
def normalize_error_message (default : String) (body : Option JValue) :
    Except Unit String :=
  match body with
  | Option.some (.obj kvs) =>
    let getJ := fun k => (getKey kvs k).getD .null
    let errors :=
      if jTruthy (getJ "errorMessages") then getJ "errorMessages"
      else getJ "errors"
    match errors with
    | .arr xs =>
      match strList xs with
      | Option.some ss => .ok (String.intercalate "; " ss)
      | Option.none => .error ()
    | .obj ekvs =>
        .ok (String.intercalate "; "
          (ekvs.map (fun p => p.1 ++ ": " ++ pyStr p.2)))
    | e => if jTruthy e then .ok (pyStr e) else .ok default
  | _ => .ok default

/-- An example configuration with no custom start-date field id. -/
def settingsNoCustomField : JiraSettings :=
  { base_url := "https://example.test", email := "user@example.test"
    api_token := "token", project_key := "PROJ", issue_type := "Task" }

/-- An example configuration whose custom start-date field id collides with
the standard `"description"` field. -/
def settingsDescriptionField : JiraSettings :=
  { settingsNoCustomField with start_date_field_id := Option.some "description" }

/-- An example configuration with an ordinary custom start-date field id. -/
def settingsCustomField : JiraSettings :=
  { settingsNoCustomField with start_date_field_id := Option.some "customfield_10015" }

/-- An example complete `jira` configuration section. -/
def sectionGood : JiraSection :=
  [("base_url", "https://example.test/"), ("email", "user@example.test"),
   ("api_token", "token"), ("project_key", "PROJ"), ("issue_type", "Task")]

/-! Helper lemmas about the dict operations and the store. -/

theorem getKey_map_set_of_mem (k : String) (v : JValue) :
    ∀ d : PyDict, d.any (fun p => p.1 = k) = true →
      getKey (d.map (fun p => if p.1 = k then (k, v) else p)) k = Option.some v := by
  intro d
  induction d with
  | nil => intro h; simp at h
  | cons p d ih =>
    intro h
    by_cases hp : p.1 = k
    · simp [getKey, hp, List.find?_cons_of_pos]
    · simp only [List.any_cons, Bool.or_eq_true, decide_eq_true_eq] at h
      rcases h with h | h
      · exact absurd h hp
      · simp only [List.map_cons, if_neg hp]
        simp only [getKey] at ih ⊢
        rw [List.find?_cons_of_neg _ (by simpa using hp)]
        exact ih h

theorem getKey_setKey_same (d : PyDict) (k : String) (v : JValue) :
    getKey (setKey d k v) k = Option.some v := by
  unfold setKey
  by_cases h : d.any (fun p => p.1 = k) = true
  · rw [if_pos h]
    exact getKey_map_set_of_mem k v d h
  · rw [if_neg h]
    have hnone : d.find? (fun p => decide (p.1 = k)) = Option.none := by
      rw [List.find?_eq_none]
      intro p hp
      intro hk
      exact h (List.any_eq_true.mpr ⟨p, hp, hk⟩)
    simp [getKey, List.find?_append, hnone, List.find?]

theorem getKey_setKey_ne (d : PyDict) (k k' : String) (v : JValue)
    (hne : k' ≠ k) : getKey (setKey d k v) k' = getKey d k' := by
  unfold setKey
  by_cases h : d.any (fun p => p.1 = k) = true
  · rw [if_pos h]
    clear h
    induction d with
    | nil => rfl
    | cons p d ih =>
      by_cases hp : p.1 = k
      · have hne2 : ¬((k, v).1 = k') := fun hc => hne (hc ▸ rfl)
        have hne3 : ¬(p.1 = k') := fun hc => hne (by rw [← hc, hp])
        simp only [List.map_cons, if_pos hp, getKey] at ih ⊢
        rw [List.find?_cons_of_neg _ (by simpa using hne2),
          List.find?_cons_of_neg _ (by simpa using hne3)]
        exact ih
      · by_cases hp' : p.1 = k'
        · simp only [List.map_cons, if_neg hp, getKey]
          rw [List.find?_cons_of_pos _ (by simpa using hp'),
            List.find?_cons_of_pos _ (by simpa using hp')]
        · simp only [List.map_cons, if_neg hp, getKey] at ih ⊢
          rw [List.find?_cons_of_neg _ (by simpa using hp'),
            List.find?_cons_of_neg _ (by simpa using hp')]
          exact ih
  · rw [if_neg h]
    unfold getKey
    rw [List.find?_append]
    by_cases hf : (d.find? fun p => decide (p.1 = k')).isSome
    · rcases Option.isSome_iff_exists.mp hf with ⟨p, hp⟩
      simp [hp]
    · have hnone : d.find? (fun p => decide (p.1 = k')) = Option.none :=
        Option.not_isSome_iff_eq_none.mp hf
      have hkk : k ≠ k' := Ne.symm hne
      simp [hnone, List.find?, hkk]

theorem Store.read_alloc (σ : Store) (d : PyDict) (a : Addr) (old : PyDict)
    (h : σ.read a = Option.some old) : (σ.alloc d).1.read a = Option.some old := by
  have hlt : a < σ.dicts.length := by
    by_contra hge
    rw [Store.read, List.getElem?_eq_none (Nat.le_of_not_lt hge)] at h
    exact Option.noConfusion h
  rw [Store.read] at h ⊢
  rw [Store.alloc]
  rw [List.getElem?_append_left hlt]
  exact h

theorem Store.read_write_ne (σ : Store) (a b : Addr) (d : PyDict)
    (h : a ≠ b) : (σ.write a d).read b = σ.read b := by
  rw [Store.read, Store.write, Store.read]
  exact List.getElem?_set_ne h

theorem Store.alloc_addr_notin (σ : Store) (d : PyDict) (a : Addr)
    (old : PyDict) (h : σ.read a = Option.some old) : (σ.alloc d).2 ≠ a := by
  intro hc
  have hlt : a < σ.dicts.length := by
    by_contra hge
    rw [Store.read, List.getElem?_eq_none (Nat.le_of_not_lt hge)] at h
    exact Option.noConfusion h
  rw [Store.alloc] at hc
  exact absurd (hc ▸ hlt) (Nat.lt_irrefl _)

theorem strList_map_str : ∀ ss : List String,
    strList (ss.map JValue.str) = Option.some ss := by
  intro ss
  induction ss with
  | nil => rfl
  | cons s rest ih => simp [strList, ih]

theorem load_settings_some_eq (content : Option JiraSection) :
    load_settings (Option.some content) =
      if (requiredFields.filter
            (fun f => !sectionTruthy (content.getD []) f)).isEmpty then
        .ok
          { base_url := rstripSlash ((sectionGet (content.getD []) "base_url").getD "")
            email := (sectionGet (content.getD []) "email").getD ""
            api_token := (sectionGet (content.getD []) "api_token").getD ""
            project_key := (sectionGet (content.getD []) "project_key").getD ""
            issue_type := (sectionGet (content.getD []) "issue_type").getD ""
            start_date_field_id := sectionGet (content.getD []) "start_date_field_id" }
      else
        .error (.missingValues (requiredFields.filter
          (fun f => !sectionTruthy (content.getD []) f))) := rfl

/-! The claims. -/

/-- C8: converting the empty string yields `{type: "doc", version: 1}` whose
content is exactly one paragraph, and that paragraph has no `content` key. -/
theorem c8_empty_string_single_empty_paragraph :
    text_to_adf "" =
      .obj [("type", .str "doc"), ("version", .num 1),
            ("content", .arr [.obj [("type", .str "paragraph")]])] ∧
    hasContentKey (.obj [("type", .str "paragraph")]) = false := by
  exact ⟨rfl, rfl⟩

/-- C9: converting `"a\nb"` yields a document with exactly one paragraph
whose node list is `[text "a", hardBreak, text "b"]` in that order. -/
theorem c9_single_embedded_newline :
    text_to_adf "a\nb" =
      .obj [("type", .str "doc"), ("version", .num 1),
            ("content", .arr
              [.obj [("type", .str "paragraph"),
                     ("content", .arr [textNode "a", hardBreakNode, textNode "b"])]])] := by
  decide

/-- C1 counterexample: the claim "every paragraph whose block has no
non-empty line has no `content` key" is false. On input `"\n"` the single
block `"\n"` splits into two empty lines, neither of which is non-empty, yet
the emitted paragraph carries a `content` key (holding a hardBreak node). -/
theorem c1_counterexample :
    ¬ (∀ text : String, ∀ b ∈ blocksOf text,
        (∀ l ∈ linesOf b, l = "") → hasContentKey (paragraphOfBlock b) = false) := by
  intro h
  have hb : "\n" ∈ blocksOf "\n" := by decide
  have hl : ∀ l ∈ linesOf "\n", l = "" := by decide
  have hc := h "\n" "\n" hb hl
  have hc2 : hasContentKey (paragraphOfBlock "\n") = true := by decide
  rw [hc2] at hc
  exact Bool.noConfusion hc

/-- C1 (amended): a paragraph produced from an *empty* block (a block that
is the empty string, hence has no non-empty lines and no interior line
break) has no `content` key; blocks with only empty lines but embedded
newlines do get a `content` key holding hardBreak nodes. -/
theorem c1_amended_empty_block_no_content_key :
    ∀ text : String, ∀ b ∈ blocksOf text,
      b = "" → hasContentKey (paragraphOfBlock b) = false := by
  intro text b _ hb
  rw [hb]
  rfl

/-- C1 witness: the amended statement applied to the empty input, whose one
block is empty. -/
theorem c1_amended_witness :
    "" ∈ blocksOf "" ∧ hasContentKey (paragraphOfBlock "") = false := by
  refine ⟨by decide, ?_⟩
  exact c1_amended_empty_block_no_content_key "" "" (by decide) rfl

/-- C5: `_ensure_adf` passes an already-structured (dict) document through
unchanged, and re-applying it to any of its own outputs is a no-op. -/
theorem c5_ensure_adf_identity_and_idempotent :
    (∀ d : PyDict, ensure_adf (.obj d) = .ok (.obj d)) ∧
    (∀ v j : JValue, ensure_adf v = .ok j → ensure_adf j = .ok j) := by
  constructor
  · intro d
    rfl
  · intro v j h
    cases v with
    | null =>
        have hj : j = text_to_adf "" := by
          simpa [ensure_adf] using h.symm
        rw [hj]; rfl
    | str s =>
        have hj : j = text_to_adf s := by
          simpa [ensure_adf] using h.symm
        rw [hj]; rfl
    | obj d =>
        have hj : j = .obj d := by
          simpa [ensure_adf] using h.symm
        rw [hj]; rfl
    | num n => exact absurd h (by simp [ensure_adf])
    | bool b => exact absurd h (by simp [ensure_adf])
    | arr xs => exact absurd h (by simp [ensure_adf])

/-- C5 witness: pass-through on a concrete dict, and a no-op re-application
to the output produced for a concrete string description. -/
theorem c5_witness :
    ensure_adf (.obj [("k", .null)]) = .ok (.obj [("k", .null)]) ∧
    ensure_adf (text_to_adf "x") = .ok (text_to_adf "x") := by
  exact ⟨c5_ensure_adf_identity_and_idempotent.1 [("k", .null)],
    c5_ensure_adf_identity_and_idempotent.2 (.str "x") (text_to_adf "x") rfl⟩

/-- C4: `update_issue` on a successful (2xx) response with an empty body
returns the synthetic marker `{"status": "success"}` rather than parsing the
body as JSON. -/
theorem c4_update_empty_body_success_marker (resp : HttpResponse)
    (hlo : 200 ≤ resp.status) (hhi : resp.status < 300)
    (hempty : resp.text = "") :
    update_issue_result resp = .ok (.obj [("status", .str "success")]) := by
  unfold update_issue_result
  have hraise : raiseForStatus resp.status = false := by
    unfold raiseForStatus
    simp only [Bool.and_eq_false_iff, decide_eq_false_iff_not, Nat.not_le]
    left
    omega
  rw [hraise]
  simp only [Bool.false_eq_true, if_false]
  rw [if_pos hempty]

/-- C4 witness: a concrete 204 response with an empty body. -/
theorem c4_witness :
    200 ≤ (204 : Nat) ∧ (204 : Nat) < 300 ∧
    update_issue_result ⟨204, "", Option.none⟩ =
      .ok (.obj [("status", .str "success")]) := by
  exact ⟨by decide, by decide,
    c4_update_empty_body_success_marker ⟨204, "", Option.none⟩
      (by decide) (by decide) rfl⟩

/-- C10: `update_issue` does not mutate the caller's fields dict. When the
dict at address `a` has a `description` key, the conversion is applied to a
freshly allocated copy, so after the preparation step the original address
still holds the original dict (hence the original description value). -/
theorem c10_update_does_not_mutate_caller (σ : Store) (a : Addr)
    (fields : PyDict) (d : JValue)
    (hread : σ.read a = Option.some fields)
    (hdesc : getKey fields "description" = Option.some d) :
    (update_issue_prepare σ a).1.read a = Option.some fields := by
  simp only [update_issue_prepare, hread, hdesc]
  cases he : ensure_adf d with
  | error e =>
      simpa using Store.read_alloc σ fields a fields hread
  | ok adf =>
      simp only []
      rw [Store.read_write_ne _ _ _ _
        (Store.alloc_addr_notin σ fields a fields hread)]
      exact Store.read_alloc σ fields a fields hread

/-- C10 witness: a store holding one dict with a string description; after
preparation the address still holds the original dict. -/
theorem c10_witness :
    (update_issue_prepare ⟨[[("description", .str "x"), ("summary", .str "s")]]⟩ 0).1.read 0 =
      Option.some [("description", .str "x"), ("summary", .str "s")] := by
  exact c10_update_does_not_mutate_caller _ 0
    [("description", .str "x"), ("summary", .str "s")] (.str "x") rfl rfl

/-- C7: the settings loader returns settings exactly when the configuration
file is present and every required key (`base_url`, `email`, `api_token`,
`project_key`, `issue_type`) is present and non-empty; in every other case
it fails with a `JiraConfigurationError`. -/
theorem c7_load_settings_ok_iff (file : Option (Option JiraSection)) :
    ((∃ s, load_settings file = .ok s) ↔
      (∃ content, file = Option.some content ∧
        ∀ f ∈ requiredFields, sectionTruthy (content.getD []) f = true)) ∧
    ((∃ e, load_settings file = .error e) ↔
      (file = Option.none ∨ ∃ content, file = Option.some content ∧
        ∃ f ∈ requiredFields, sectionTruthy (content.getD []) f = false)) := by
  cases file with
  | none =>
      constructor
      · constructor
        · rintro ⟨s, hs⟩
          exact absurd hs (by simp [load_settings])
        · rintro ⟨content, hc, -⟩
          exact Option.noConfusion hc
      · constructor
        · intro _
          exact Or.inl rfl
        · intro _
          exact ⟨.fileNotFound, rfl⟩
  | some content =>
      by_cases hemp :
          (requiredFields.filter
            (fun f => !sectionTruthy (content.getD []) f)).isEmpty = true
      · have hall : ∀ f ∈ requiredFields,
            sectionTruthy (content.getD []) f = true := by
          rw [List.isEmpty_iff, List.filter_eq_nil_iff] at hemp
          intro f hf
          have := hemp f hf
          simpa using this
        constructor
        · constructor
          · intro _
            exact ⟨content, rfl, hall⟩
          · intro _
            rw [load_settings_some_eq, if_pos hemp]
            exact ⟨_, rfl⟩
        · constructor
          · rintro ⟨e, he⟩
            rw [load_settings_some_eq, if_pos hemp] at he
            exact Except.noConfusion he
          · rintro (hn | ⟨c, hc, f, hf, hfalse⟩)
            · exact Option.noConfusion hn
            · cases Option.some.inj hc
              rw [hall f hf] at hfalse
              exact Bool.noConfusion hfalse
      · have hex : ∃ f ∈ requiredFields,
            sectionTruthy (content.getD []) f = false := by
          rcases List.exists_mem_of_ne_nil
              (requiredFields.filter (fun f => !sectionTruthy (content.getD []) f))
              (fun hnil => hemp (by rw [hnil]; rfl)) with ⟨f, hf⟩
          have hmem := List.mem_filter.mp hf
          refine ⟨f, hmem.1, ?_⟩
          simpa using hmem.2
        constructor
        · constructor
          · rintro ⟨s, hs⟩
            rw [load_settings_some_eq, if_neg hemp] at hs
            exact Except.noConfusion hs
          · rintro ⟨c, hc, hall⟩
            cases Option.some.inj hc
            rcases hex with ⟨f, hf, hfalse⟩
            rw [hall f hf] at hfalse
            exact Bool.noConfusion hfalse
        · constructor
          · intro _
            exact Or.inr ⟨content, rfl, hex⟩
          · intro _
            rw [load_settings_some_eq, if_neg hemp]
            exact ⟨_, rfl⟩

/-- C7 witness: a complete section loads successfully (with the trailing
slash stripped from the base URL), and an incomplete one fails. -/
theorem c7_witness :
    (∃ s, load_settings (Option.some (Option.some sectionGood)) = .ok s) ∧
    (∃ e, load_settings (Option.some (Option.some [("base_url", "https://x")])) =
      .error e) := by
  constructor
  · exact (c7_load_settings_ok_iff (Option.some (Option.some sectionGood))).1.mpr
      ⟨Option.some sectionGood, rfl, by decide⟩
  · exact (c7_load_settings_ok_iff _).2.mpr
      (Or.inr ⟨Option.some [("base_url", "https://x")], rfl, "email", by decide, by decide⟩)

/-- C2 counterexample: with `startDate` present and no custom field id
configured, `create_issue` builds exactly the fields it would build without
the start date: nothing is prepended to the description, which converts to
the plain ADF of `"desc"` and differs from the ADF of a description with a
`"Start Date: ..."` line prepended. -/
theorem c2_counterexample :
    create_issue_fields settingsNoCustomField "s" (.str "desc")
        (Option.some "2024-04-01") Option.none =
      create_issue_fields settingsNoCustomField "s" (.str "desc")
        Option.none Option.none ∧
    (create_issue_fields settingsNoCustomField "s" (.str "desc")
        (Option.some "2024-04-01") Option.none).toOption.map
        (fun f => getKey f "description") =
      Option.some (Option.some (text_to_adf "desc")) ∧
    text_to_adf "desc" ≠ text_to_adf ("Start Date: 2024-04-01" ++ "\n" ++ "desc") := by
  refine ⟨rfl, rfl, by decide⟩

/-- C2 (amended): when no custom start-date field id is configured,
`create_issue` silently ignores `startDate`: the built fields object is
identical to the one built with no `startDate` at all (no custom field is
set and the description is untouched). -/
theorem c2_amended_start_date_dropped
    (settings : JiraSettings) (summary : String) (description : JValue)
    (start_date due_date : Option String)
    (h : truthyOptStr settings.start_date_field_id = false) :
    create_issue_fields settings summary description start_date due_date =
      create_issue_fields settings summary description Option.none due_date := by
  simp only [create_issue_fields]
  cases start_date with
  | none => rfl
  | some sd =>
      cases hf : settings.start_date_field_id with
      | none => simp
      | some fid =>
          have hfe : fid = "" := by
            rw [hf] at h
            simpa [truthyOptStr] using h
          subst hfe
          simp

/-- C2 witness: the amended statement at a concrete configuration without a
custom field id. -/
theorem c2_amended_witness :
    truthyOptStr settingsNoCustomField.start_date_field_id = false ∧
    create_issue_fields settingsNoCustomField "s" (.str "x")
        (Option.some "2024-04-01") Option.none =
      create_issue_fields settingsNoCustomField "s" (.str "x")
        Option.none Option.none := by
  exact ⟨rfl, c2_amended_start_date_dropped settingsNoCustomField "s" (.str "x")
    (Option.some "2024-04-01") Option.none rfl⟩

/-- C6 counterexample: when the configured custom start-date field id is the
string `"description"`, the claim fails: the final assignment of the
converted description overwrites the custom field, so the built fields map
`"description"` to the ADF document, not to the startDate string. -/
theorem c6_counterexample :
    (create_issue_fields settingsDescriptionField "s" (.str "d")
        (Option.some "2024-04-01") Option.none).toOption.map
        (fun f => getKey f "description") =
      Option.some (Option.some (text_to_adf "d")) ∧
    (create_issue_fields settingsDescriptionField "s" (.str "d")
        (Option.some "2024-04-01") Option.none).toOption.map
        (fun f => getKey f "description") ≠
      Option.some (Option.some (.str "2024-04-01")) := by
  refine ⟨rfl, by decide⟩

/-- C6 (amended): with `startDate` present and a configured custom
start-date field id *different from `"description"`*, the built fields map
that custom field id to exactly the startDate string, and the description
field is the `_ensure_adf` conversion of the description — the same value
it has when no startDate is given. -/
theorem c6_amended_custom_field_holds_start_date
    (settings : JiraSettings) (summary : String) (description : JValue)
    (sd : String) (due_date : Option String) (fid : String) (adf : JValue)
    (hfid : settings.start_date_field_id = Option.some fid)
    (hfid_ne : fid ≠ "") (hfid_nd : fid ≠ "description") (hsd : sd ≠ "")
    (hadf : ensure_adf description = .ok adf) :
    (∃ flds, create_issue_fields settings summary description
        (Option.some sd) due_date = .ok flds ∧
      getKey flds fid = Option.some (.str sd) ∧
      getKey flds "description" = Option.some adf) ∧
    (∃ flds0, create_issue_fields settings summary description
        Option.none due_date = .ok flds0 ∧
      getKey flds0 "description" = Option.some adf) := by
  constructor
  · simp only [create_issue_fields, hfid, hadf]
    refine ⟨_, rfl, ?_, ?_⟩
    · rw [if_pos ⟨hsd, hfid_ne⟩]
      rw [getKey_setKey_ne _ _ _ _ hfid_nd]
      exact getKey_setKey_same _ _ _
    · exact getKey_setKey_same _ _ _
  · simp only [create_issue_fields, hadf]
    exact ⟨_, rfl, getKey_setKey_same _ _ _⟩

/-- C6 witness: a concrete call with an ordinary custom field id. -/
theorem c6_amended_witness :
    settingsCustomField.start_date_field_id = Option.some "customfield_10015" ∧
    ensure_adf (.str "d2") = .ok (text_to_adf "d2") ∧
    ((∃ flds, create_issue_fields settingsCustomField "s" (.str "d2")
        (Option.some "2024-04-01") Option.none = .ok flds ∧
      getKey flds "customfield_10015" = Option.some (.str "2024-04-01") ∧
      getKey flds "description" = Option.some (text_to_adf "d2")) ∧
    (∃ flds0, create_issue_fields settingsCustomField "s" (.str "d2")
        Option.none Option.none = .ok flds0 ∧
      getKey flds0 "description" = Option.some (text_to_adf "d2"))) := by
  exact ⟨rfl, rfl,
    c6_amended_custom_field_holds_start_date settingsCustomField "s" (.str "d2")
      "2024-04-01" Option.none "customfield_10015" (text_to_adf "d2")
      rfl (by decide) (by decide) (by decide) rfl⟩

/-- C3: the error normalization of the web layer joins the strings of an
`errorMessages` list (when that key holds a non-empty list) with `"; "`, or
formats an `errors` object as `"field: message"` entries joined with `"; "`;
in particular `{"errorMessages": ["summary is required"]}` normalizes to
`"summary is required"` and `{"errors": {"summary": "is required"}}`
normalizes to `"summary: is required"`. -/
theorem c3_error_normalization :
    (∀ (default : String) (kvs : PyDict) (ss : List String),
        getKey kvs "errorMessages" = Option.some (.arr (ss.map JValue.str)) →
        ss ≠ [] →
        normalize_error_message default (Option.some (.obj kvs)) =
          .ok (String.intercalate "; " ss)) ∧
    (∀ (default : String) (kvs : PyDict) (em : List (String × String)),
        getKey kvs "errorMessages" = Option.none →
        getKey kvs "errors" =
          Option.some (.obj (em.map (fun p => (p.1, JValue.str p.2)))) →
        normalize_error_message default (Option.some (.obj kvs)) =
          .ok (String.intercalate "; " (em.map (fun p => p.1 ++ ": " ++ p.2)))) ∧
    normalize_error_message "400 Client Error"
        (Option.some (.obj [("errorMessages", .arr [.str "summary is required"])])) =
      .ok "summary is required" ∧
    normalize_error_message "400 Client Error"
        (Option.some (.obj [("errors", .obj [("summary", .str "is required")])])) =
      .ok "summary: is required" := by
  refine ⟨?_, ?_, rfl, rfl⟩
  · intro default kvs ss hget hne
    simp only [normalize_error_message, hget, Option.getD_some]
    have htr : jTruthy (.arr (ss.map JValue.str)) = true := by
      cases ss with
      | nil => exact absurd rfl hne
      | cons s rest => rfl
    rw [if_pos htr]
    simp only [strList_map_str]
  · intro default kvs em hnone hget
    simp only [normalize_error_message, hnone, hget, Option.getD_some,
      Option.getD_none]
    rw [if_neg (by simp [jTruthy])]
    simp only [List.map_map]
    rfl

/-- C3 witness: joining a two-element `errorMessages` list and a
two-entry `errors` mapping. -/
theorem c3_witness :
    normalize_error_message "d"
        (Option.some (.obj [("errorMessages", .arr [.str "a", .str "b"])])) =
      .ok "a; b" ∧
    normalize_error_message "d"
        (Option.some (.obj [("errors", .obj [("f", .str "m"), ("g", .str "n")])])) =
      .ok "f: m; g: n" := by
  constructor
  · exact c3_error_normalization.1 "d"
      [("errorMessages", .arr [.str "a", .str "b"])] ["a", "b"] rfl (by decide)
  · exact c3_error_normalization.2.1 "d"
      [("errors", .obj [("f", .str "m"), ("g", .str "n")])]
      [("f", "m"), ("g", "n")] rfl rfl

end Jira
